import Mathlib

/-!
Verification of the API-schema registry and validator described by the
specification of the dev-standards repository, together with an embedding of
the concrete declarative metadata found in
src/examples/rust/openapi-integration.rs.

The repository's single source file is a declarative utoipa/axum example: all
handler bodies are unimplemented placeholders, and the registry/validator
subsystem is described only by the specification.  Accordingly the registry
operations below are modelled from the spec, while the schemas, operations,
parameters and constraints of the example are translated from the source file
itself.
-/

namespace DevStandards

/-- Location of a request parameter, per the spec's ParameterDescriptor
(path or query). -/
inductive ParamLocation where
  | path
  | query
deriving DecidableEq

/-- HTTP methods that appear in the example and the spec's operation model. -/
inductive HttpMethod where
  | get
  | post
  | put
  | delete
  | patch
deriving DecidableEq

/-- Numeric index of an HTTP method, used as the final tie-breaking component
of the emitter's (tag, path, method) ordering. -/
def methodIndex : HttpMethod → Nat
  | .get => 0
  | .post => 1
  | .put => 2
  | .delete => 3
  | .patch => 4

/-- A field-level validation constraint: one of pattern, length bounds,
numeric bounds, enumerated values, or a format tag, per the spec's
FieldConstraint data model. -/
inductive FieldConstraint where
  | pattern (re : String)
  | lengthBounds (lo hi : Option Nat)
  | numericBounds (lo hi : Option Int)
  | enumValues (vals : List String)
  | formatTag (tag : String)
deriving DecidableEq

/-- One field of a schema: name, semantic type, required flag, constraints,
and an optional example value. -/
structure FieldSpec where
  name : String
  semanticType : String
  required : Bool
  constraints : List FieldConstraint
  exampleValue : Option String
deriving DecidableEq

/-- A named data shape: unique name plus its ordered field list. -/
structure SchemaModel where
  name : String
  fields : List FieldSpec
deriving DecidableEq

/-- A request parameter: name, location, semantic type, required flag,
constraints and an optional default (query only). -/
structure ParameterDescriptor where
  name : String
  location : ParamLocation
  semanticType : String
  required : Bool
  constraints : List FieldConstraint
  defaultValue : Option String
deriving DecidableEq

/-- One response alternative: status code, human-readable description and an
optional body schema reference (by name). -/
structure ResponseDescriptor where
  status : Nat
  description : String
  bodySchema : Option String
deriving DecidableEq

/-- One API operation: method, path template, summary, description, tag,
parameters, optional request-body schema reference, response map and
security requirements. -/
structure OperationDescriptor where
  method : HttpMethod
  pathTemplate : String
  summary : String
  description : String
  tag : String
  params : List ParameterDescriptor
  requestBody : Option String
  responses : List ResponseDescriptor
  security : List String
deriving DecidableEq

/-- The resolved state of a registry after successful finalization: the schema
table and the operation list, now immutable. -/
structure ResolvedDocument where
  schemas : List SchemaModel
  operations : List OperationDescriptor
deriving DecidableEq

/-- Modelled from the spec: the Registry, owning all schemas and operations.
The spec's Open/Finalized state machine is represented by the `finalized`
field: `none` is the Open phase, `some d` is the Finalized phase with resolved
document `d`. -/
structure Registry where
  schemas : List SchemaModel
  operations : List OperationDescriptor
  finalized : Option ResolvedDocument
deriving DecidableEq

/-- The empty registry in the Open phase. -/
def emptyRegistry : Registry := ⟨[], [], none⟩

/-- Modelled from the spec: the registration-time error taxonomy of section 7.
(The missing part is the registry implementation, absent from the source.) -/
inductive RegError where
  | duplicateSchemaError (name : String)
  | unknownSchemaError (name : String)
  | pathParameterMismatchError (name : String)
  | invalidStatusCodeError (code : Nat)
  | duplicateRouteError (method : HttpMethod) (path : String)
  | registryFinalizedError
deriving DecidableEq

/-- Modelled from the spec: one violation reported by `finalize()` — either an
operation's schema reference that resolves to no registered schema, or a
field constraint that is not internally well-formed.  The spec's batched
ValidationErrors is a list of these. -/
inductive Violation where
  | unresolvedSchema (name : String)
  | illFormedConstraint (c : FieldConstraint)
deriving DecidableEq

/-- The opening-brace character of a path-parameter placeholder. -/
def lbrace : Char := Char.ofNat 123

/-- The closing-brace character of a path-parameter placeholder. -/
def rbrace : Char := Char.ofNat 125

mutual

/-- Scan a path template (outside a placeholder) collecting placeholder
names. -/
def scanPlaceholders : List Char → List String
  | [] => []
  | c :: cs => if c = lbrace then scanName cs [] else scanPlaceholders cs

/-- Scan the interior of a placeholder, accumulating its name (reversed). -/
def scanName : List Char → List Char → List String
  | [], acc => [String.mk acc.reverse]
  | c :: cs, acc =>
      if c = rbrace then String.mk acc.reverse :: scanPlaceholders cs
      else scanName cs (c :: acc)

end

/-- Modelled from the spec: the names of the `{param}` placeholders of a path
template, in order of appearance. -/
def extractPlaceholders (s : String) : List String :=
  scanPlaceholders s.data

/-- The names of an operation's path-located parameters. -/
def pathParamNames (op : OperationDescriptor) : List String :=
  (op.params.filter (fun p => p.location = ParamLocation.path)).map (fun p => p.name)

/-- Modelled from the spec: the placeholder/parameter mismatches of an
operation — placeholders with no path-located parameter of the same name,
followed by path-located parameters with no placeholder. -/
def mismatchNames (op : OperationDescriptor) : List String :=
  (extractPlaceholders op.pathTemplate).filter
      (fun p => !(pathParamNames op).contains p)
    ++ (pathParamNames op).filter
      (fun p => !(extractPlaceholders op.pathTemplate).contains p)

/-- A valid 3-digit HTTP status code. -/
def validStatus (n : Nat) : Bool := decide (100 ≤ n) && decide (n ≤ 999)

/-- The status codes of an operation's response map, in order. -/
def statusList (op : OperationDescriptor) : List Nat :=
  op.responses.map (fun r => r.status)

/-- Modelled from the spec: the status codes of an operation that violate the
uniqueness or 3-digit-validity requirement of section 4.2. -/
def statusProblems (op : OperationDescriptor) : List Nat :=
  (statusList op).filter (fun c => !validStatus c)
    ++ (statusList op).filter (fun c => 2 ≤ (statusList op).count c)

/-- Modelled from the spec: `defineSchema(name, fields)`.  Fails with
RegistryFinalizedError after finalization and with DuplicateSchemaError if
the name is already registered; otherwise appends to the schema table. -/
def defineSchema (r : Registry) (name : String) (fields : List FieldSpec) :
    Except RegError Registry :=
  if r.finalized.isSome then .error .registryFinalizedError
  else if r.schemas.any (fun s => s.name = name) then
    .error (.duplicateSchemaError name)
  else .ok { r with schemas := r.schemas ++ [⟨name, fields⟩] }

/-- Modelled from the spec: `defineOperation(method, pathTemplate, spec)`.
Validates at registration time that placeholders and path parameters
correspond, that response status codes are unique valid 3-digit codes, and
that no registered operation shares (method, pathTemplate); schema references
are deliberately not checked here (deferred to finalization). -/
def defineOperation (r : Registry) (op : OperationDescriptor) :
    Except RegError Registry :=
  if r.finalized.isSome then .error .registryFinalizedError
  else
    match mismatchNames op with
    | p :: _ => .error (.pathParameterMismatchError p)
    | [] =>
      match statusProblems op with
      | c :: _ => .error (.invalidStatusCodeError c)
      | [] =>
        if r.operations.any (fun o =>
            decide (o.method = op.method) && decide (o.pathTemplate = op.pathTemplate)) then
          .error (.duplicateRouteError op.method op.pathTemplate)
        else .ok { r with operations := r.operations ++ [op] }

/-- Modelled from the spec: a syntactic stand-in for "the regular-expression
pattern compiles": every escape is followed by a character and group/class
brackets are balanced.  `p` and `b` count open parentheses and open square
brackets. -/
def patternScan : List Char → Nat → Nat → Bool
  | [], p, b => decide (p = 0) && decide (b = 0)
  | c :: cs, p, b =>
    if c = '\\' then
      match cs with
      | [] => false
      | _ :: cs' => patternScan cs' p b
    else if c = '(' then patternScan cs (p + 1) b
    else if c = ')' then decide (p ≠ 0) && patternScan cs (p - 1) b
    else if c = '[' then patternScan cs p (b + 1)
    else if c = ']' then decide (b ≠ 0) && patternScan cs p (b - 1)
    else patternScan cs p b

/-- Whether a pattern string compiles, per the model above. -/
def patternCompiles (re : String) : Bool := patternScan re.data 0 0

/-- Internal well-formedness of one constraint, as a boolean check: ordered
bounds when both ends are present, non-empty enumerations, compiling
patterns. -/
def wellFormedB : FieldConstraint → Bool
  | .pattern re => patternCompiles re
  | .lengthBounds (some a) (some b) => decide (a ≤ b)
  | .lengthBounds _ _ => true
  | .numericBounds (some a) (some b) => decide (a ≤ b)
  | .numericBounds _ _ => true
  | .enumValues vs => !vs.isEmpty
  | .formatTag _ => true

/-- Internal well-formedness of one constraint, as stated by the spec: when
both a lower and an upper bound are present, min ≤ max; enumerated-values
lists are non-empty; patterns compile. -/
def WellFormed : FieldConstraint → Prop
  | .pattern re => patternCompiles re = true
  | .lengthBounds lo hi => ∀ a b, lo = some a → hi = some b → a ≤ b
  | .numericBounds lo hi => ∀ a b, lo = some a → hi = some b → a ≤ b
  | .enumValues vs => vs ≠ []
  | .formatTag _ => True

/-- Every constraint held by a registry: the constraints of every schema field
and of every operation parameter. -/
def allConstraints (r : Registry) : List FieldConstraint :=
  ((r.schemas.map (fun s => (s.fields.map (fun f => f.constraints)).flatten)).flatten)
    ++ ((r.operations.map (fun o => (o.params.map (fun p => p.constraints)).flatten)).flatten)

/-- Every schema name referenced by an operation: its request body reference
and the body references of its response map. -/
def opReferences (op : OperationDescriptor) : List String :=
  op.requestBody.toList ++ op.responses.filterMap (fun resp => resp.bodySchema)

/-- Every schema name referenced by any operation of the registry. -/
def referencedSchemaNames (r : Registry) : List String :=
  (r.operations.map opReferences).flatten

/-- The names present in the registry's schema table. -/
def schemaNames (r : Registry) : List String :=
  r.schemas.map (fun s => s.name)

/-- Referenced schema names that resolve to no registered schema. -/
def unresolvedRefs (r : Registry) : List String :=
  (referencedSchemaNames r).filter (fun n => !(schemaNames r).contains n)

/-- The registry's constraints that fail the well-formedness check. -/
def badConstraints (r : Registry) : List FieldConstraint :=
  (allConstraints r).filter (fun c => !wellFormedB c)

/-- Modelled from the spec: the aggregate list of all violations `finalize()`
reports — every unresolved schema reference followed by every ill-formed
constraint. -/
def finalizeViolations (r : Registry) : List Violation :=
  (unresolvedRefs r).map Violation.unresolvedSchema
    ++ (badConstraints r).map Violation.illFormedConstraint

/-- Modelled from the spec: `finalize()`.  On an already-finalized registry it
returns the cached resolved document unchanged; on an open registry it either
reports the aggregate violation list or transitions Open → Finalized, caching
the resolved document. -/
def finalize (r : Registry) : Except (List Violation) (ResolvedDocument × Registry) :=
  match r.finalized with
  | some d => .ok (d, r)
  | none =>
    if finalizeViolations r = [] then
      let d : ResolvedDocument := ⟨r.schemas, r.operations⟩
      .ok (d, { r with finalized := some d })
    else .error (finalizeViolations r)

/-- The spec's InterchangeDocument shape, with operations and schemas held in
the emitter's canonical order. -/
structure InterchangeDocument where
  operations : List OperationDescriptor
  schemas : List SchemaModel
deriving DecidableEq

/-- The emitter's operation ordering: lexicographically by tag, then path
template, then HTTP method. -/
def opLE (a b : OperationDescriptor) : Prop :=
  a.tag < b.tag ∨
    (a.tag = b.tag ∧
      (a.pathTemplate < b.pathTemplate ∨
        (a.pathTemplate = b.pathTemplate ∧ methodIndex a.method ≤ methodIndex b.method)))

instance : DecidableRel opLE := fun a b => by
  unfold opLE; infer_instance

instance : IsTotal OperationDescriptor opLE := by
  constructor
  intro a b
  rcases lt_trichotomy a.tag b.tag with h | h | h
  · exact Or.inl (Or.inl h)
  · rcases lt_trichotomy a.pathTemplate b.pathTemplate with h' | h' | h'
    · exact Or.inl (Or.inr ⟨h, Or.inl h'⟩)
    · rcases Nat.le_total (methodIndex a.method) (methodIndex b.method) with h'' | h''
      · exact Or.inl (Or.inr ⟨h, Or.inr ⟨h', h''⟩⟩)
      · exact Or.inr (Or.inr ⟨h.symm, Or.inr ⟨h'.symm, h''⟩⟩)
    · exact Or.inr (Or.inr ⟨h.symm, Or.inl h'⟩)
  · exact Or.inr (Or.inl h)

instance : IsTrans OperationDescriptor opLE := by
  constructor
  intro a b c hab hbc
  rcases hab with h1 | ⟨e1, h1⟩
  · rcases hbc with h2 | ⟨e2, _⟩
    · exact Or.inl (h1.trans h2)
    · exact Or.inl (e2 ▸ h1)
  · rcases hbc with h2 | ⟨e2, h2⟩
    · exact Or.inl (e1 ▸ h2)
    · refine Or.inr ⟨e1.trans e2, ?_⟩
      rcases h1 with p1 | ⟨q1, m1⟩
      · rcases h2 with p2 | ⟨q2, _⟩
        · exact Or.inl (p1.trans p2)
        · exact Or.inl (q2 ▸ p1)
      · rcases h2 with p2 | ⟨q2, m2⟩
        · exact Or.inl (q1 ▸ p2)
        · exact Or.inr ⟨q1.trans q2, m1.trans m2⟩

/-- The emitter's schema ordering: by name. -/
def schemaLE (a b : SchemaModel) : Prop := a.name ≤ b.name

instance : DecidableRel schemaLE := fun a b => by
  unfold schemaLE; infer_instance

instance : IsTotal SchemaModel schemaLE :=
  ⟨fun a b => le_total a.name b.name⟩

instance : IsTrans SchemaModel schemaLE :=
  ⟨fun _ _ _ h h' => le_trans h h'⟩

/-- Modelled from the spec: `emit(ResolvedDocument)`.  A pure function of the
resolved document: operations sorted by (tag, path, method) and schemas
sorted by name. -/
def emit (d : ResolvedDocument) : InterchangeDocument :=
  { operations := List.insertionSort opLE d.operations
    schemas := List.insertionSort schemaLE d.schemas }

/-!
Concrete metadata translated from src/examples/rust/openapi-integration.rs:
the four registered component schemas (with the nested helper shapes), the
three documented operations, and the document-level security requirement of
the ApiDoc derive block.
-/

/-- The Employee schema of the source, with its field constraints. -/
def employeeSchema : SchemaModel :=
  { name := "Employee"
    fields :=
      [ ⟨"id", "uuid", true, [], none⟩,
        ⟨"employee_id", "string", true, [.pattern "^[A-Z]{3}[0-9]{3}$"], none⟩,
        ⟨"first_name", "string", true, [.lengthBounds (some 1) (some 100)], none⟩,
        ⟨"last_name", "string", true, [.lengthBounds (some 1) (some 100)], none⟩,
        ⟨"email", "string", true, [.formatTag "email"], none⟩,
        ⟨"employment_status", "string", true,
          [.enumValues ["active", "inactive", "terminated"]], none⟩,
        ⟨"hire_date", "date", true, [.formatTag "date"], none⟩,
        ⟨"created_at", "date-time", true, [.formatTag "date-time"], none⟩,
        ⟨"updated_at", "date-time", true, [.formatTag "date-time"], none⟩ ] }

/-- The CreateEmployeeRequest schema of the source. -/
def createEmployeeRequestSchema : SchemaModel :=
  { name := "CreateEmployeeRequest"
    fields :=
      [ ⟨"employee_id", "string", true, [.pattern "^[A-Z]{3}[0-9]{3}$"], none⟩,
        ⟨"first_name", "string", true, [.lengthBounds (some 1) (some 100)], none⟩,
        ⟨"last_name", "string", true, [.lengthBounds (some 1) (some 100)], none⟩,
        ⟨"email", "string", true, [.formatTag "email"], none⟩,
        ⟨"department_id", "uuid", false, [.formatTag "uuid"], none⟩,
        ⟨"position", "string", false, [.lengthBounds none (some 100)], none⟩,
        ⟨"hire_date", "date", true, [.formatTag "date"], none⟩ ] }

/-- The ApiError schema of the source. -/
def apiErrorSchema : SchemaModel :=
  { name := "ApiError", fields := [⟨"error", "ErrorDetails", true, [], none⟩] }

/-- The PaginatedResponse schema of the source. -/
def paginatedResponseSchema : SchemaModel :=
  { name := "PaginatedResponse"
    fields :=
      [ ⟨"data", "array", true, [], none⟩,
        ⟨"pagination", "PaginationInfo", true, [], none⟩ ] }

/-- The list_employees operation of the source: GET /employees with four
query parameters, paginated 200 response and 401 error response, secured by
BearerAuth. -/
def listEmployees : OperationDescriptor :=
  { method := .get
    pathTemplate := "/employees"
    summary := "List employees"
    description := "Retrieve a paginated list of employees with optional filtering"
    tag := "employees"
    params :=
      [ ⟨"page", .query, "u32", false, [.numericBounds (some 1) none], some "1"⟩,
        ⟨"per_page", .query, "u32", false, [.numericBounds (some 1) (some 100)], some "20"⟩,
        ⟨"department", .query, "string", false, [], none⟩,
        ⟨"status", .query, "string", false, [], none⟩ ]
    requestBody := none
    responses :=
      [ ⟨200, "List of employees", some "PaginatedResponse"⟩,
        ⟨401, "Unauthorized", some "ApiError"⟩ ]
    security := ["BearerAuth"] }

/-- The create_employee operation of the source: POST /employees with a
CreateEmployeeRequest body, secured by BearerAuth. -/
def createEmployee : OperationDescriptor :=
  { method := .post
    pathTemplate := "/employees"
    summary := "Create employee"
    description := "Create a new employee"
    tag := "employees"
    params := []
    requestBody := some "CreateEmployeeRequest"
    responses :=
      [ ⟨201, "Employee created successfully", some "Employee"⟩,
        ⟨400, "Bad request", some "ApiError"⟩,
        ⟨422, "Validation error", some "ApiError"⟩ ]
    security := ["BearerAuth"] }

/-- The get_employee operation of the source: GET /employees/{id} with a path
parameter id, secured by BearerAuth. -/
def getEmployee : OperationDescriptor :=
  { method := .get
    pathTemplate := "/employees/{id}"
    summary := "Get employee"
    description := "Retrieve a specific employee by ID"
    tag := "employees"
    params := [⟨"id", .path, "uuid", true, [], none⟩]
    requestBody := none
    responses :=
      [ ⟨200, "Employee details", some "Employee"⟩,
        ⟨404, "Employee not found", some "ApiError"⟩ ]
    security := ["BearerAuth"] }

/-- The operations listed in the ApiDoc derive block's paths(...). -/
def apiDocOperations : List OperationDescriptor :=
  [listEmployees, createEmployee, getEmployee]

/-- The document-level security requirement of the ApiDoc derive block. -/
def apiDocSecurity : List String := ["BearerAuth"]

/-!
Shared fixtures for witnesses: the example's open registry, its resolved
document and finalized registry, a mismatched variant of get_employee, and a
registry with two finalization violations.
-/

/-- The open registry obtained by registering the example's four schemas and
three operations. -/
def exampleOpen : Registry :=
  ⟨[employeeSchema, createEmployeeRequestSchema, apiErrorSchema, paginatedResponseSchema],
   apiDocOperations, none⟩

/-- The resolved document of the example registry. -/
def exampleDoc : ResolvedDocument := ⟨exampleOpen.schemas, exampleOpen.operations⟩

/-- The example registry after finalization. -/
def exampleFinal : Registry := { exampleOpen with finalized := some exampleDoc }

/-- get_employee stripped of its path parameter, leaving the placeholder id
unmatched. -/
def badGetEmployee : OperationDescriptor := { getEmployee with params := [] }

/-- An operation referencing the unregistered schema name Missing. -/
def opRefMissing : OperationDescriptor :=
  { method := .get
    pathTemplate := "/things"
    summary := ""
    description := ""
    tag := "things"
    params := []
    requestBody := none
    responses := [⟨200, "ok", some "Missing"⟩]
    security := [] }

/-- A registry holding one unresolved schema reference and one ill-formed
constraint (an empty enumeration). -/
def rBad : Registry :=
  ⟨[⟨"S", [⟨"f", "string", true, [.enumValues []], none⟩]⟩], [opRefMissing], none⟩

/-!  Helper lemmas shared by several claims. -/

/-- The boolean and propositional constraint well-formedness checks agree. -/
theorem wellFormed_iff (c : FieldConstraint) : WellFormed c ↔ wellFormedB c = true := by
  cases c with
  | pattern re => simp [WellFormed, wellFormedB]
  | lengthBounds lo hi => cases lo <;> cases hi <;> simp [WellFormed, wellFormedB]
  | numericBounds lo hi => cases lo <;> cases hi <;> simp [WellFormed, wellFormedB]
  | enumValues vs => simp [WellFormed, wellFormedB]
  | formatTag t => simp [WellFormed, wellFormedB]

/-- Success characterization of `defineSchema`: the registry must be open, the
name fresh, and the result appends the new schema to the table. -/
theorem defineSchema_ok_iff (r : Registry) (name : String) (fields : List FieldSpec)
    (r₁ : Registry) :
    defineSchema r name fields = .ok r₁ ↔
      r.finalized = none ∧ (∀ s ∈ r.schemas, ¬ s.name = name) ∧
      r₁ = { r with schemas := r.schemas ++ [⟨name, fields⟩] } := by
  unfold defineSchema
  constructor
  · intro h
    by_cases hfo : r.finalized.isSome = true
    · rw [if_pos hfo] at h; exact absurd h (by simp)
    · rw [if_neg hfo] at h
      have hf : r.finalized = none := by
        cases hE : r.finalized with
        | none => rfl
        | some d => rw [hE] at hfo; simp at hfo
      by_cases hdup : r.schemas.any (fun s => s.name = name) = true
      · rw [if_pos hdup] at h; exact absurd h (by simp)
      · rw [if_neg hdup] at h
        simp only [Except.ok.injEq] at h
        refine ⟨hf, ?_, h.symm⟩
        intro s hs hname
        exact hdup (by
          simp only [List.any_eq_true, decide_eq_true_eq]
          exact ⟨s, hs, hname⟩)
  · rintro ⟨hf, hfresh, rfl⟩
    have h1 : ¬ (r.finalized.isSome = true) := by simp [hf]
    have h2 : ¬ (r.schemas.any (fun s => s.name = name) = true) := by
      simp only [List.any_eq_true, decide_eq_true_eq]
      push_neg
      exact hfresh
    rw [if_neg h1, if_neg h2]

/-- Success characterization of `defineOperation`: the registry must be open,
the operation must pass the placeholder and status-code checks, no registered
operation may share its route, and the result appends the operation. -/
theorem defineOperation_ok_iff (r : Registry) (op : OperationDescriptor)
    (r₁ : Registry) :
    defineOperation r op = .ok r₁ ↔
      r.finalized = none ∧ mismatchNames op = [] ∧ statusProblems op = [] ∧
      (∀ o ∈ r.operations, ¬(o.method = op.method ∧ o.pathTemplate = op.pathTemplate)) ∧
      r₁ = { r with operations := r.operations ++ [op] } := by
  unfold defineOperation
  constructor
  · intro h
    by_cases hfo : r.finalized.isSome = true
    · rw [if_pos hfo] at h; exact absurd h (by simp)
    · rw [if_neg hfo] at h
      have hf : r.finalized = none := by
        cases hE : r.finalized with
        | none => rfl
        | some d => rw [hE] at hfo; simp at hfo
      cases hm : mismatchNames op with
      | cons p ps => rw [hm] at h; exact absurd h (by simp)
      | nil =>
        rw [hm] at h
        cases hst : statusProblems op with
        | cons c cs => rw [hst] at h; exact absurd h (by simp)
        | nil =>
          rw [hst] at h
          by_cases hdup : r.operations.any (fun o =>
              decide (o.method = op.method) && decide (o.pathTemplate = op.pathTemplate)) = true
          · rw [if_pos hdup] at h; exact absurd h (by simp)
          · rw [if_neg hdup] at h
            simp only [Except.ok.injEq] at h
            refine ⟨hf, rfl, rfl, ?_, h.symm⟩
            rintro o ho ⟨e1, e2⟩
            exact hdup (by
              simp only [List.any_eq_true, Bool.and_eq_true, decide_eq_true_eq]
              exact ⟨o, ho, e1, e2⟩)
  · rintro ⟨hf, hm, hst, hdup, rfl⟩
    have h1 : ¬ (r.finalized.isSome = true) := by simp [hf]
    have h2 : ¬ (r.operations.any (fun o =>
        decide (o.method = op.method) && decide (o.pathTemplate = op.pathTemplate)) = true) := by
      simp only [List.any_eq_true, Bool.and_eq_true, decide_eq_true_eq]
      rintro ⟨o, ho, e1, e2⟩
      exact hdup o ho ⟨e1, e2⟩
    rw [if_neg h1, hm, hst, if_neg h2]

/-!  C1: idempotence of finalize. -/

/-- C1: for every registry for which `finalize()` succeeds, calling
`finalize()` again on the resulting registry (no new registrations) returns
the very same ResolvedDocument and registry, and the emitted
InterchangeDocument is identical. -/
theorem finalize_idempotent (r r' : Registry) (d : ResolvedDocument)
    (h : finalize r = .ok (d, r')) :
    finalize r' = .ok (d, r') ∧ emit d = emit d := by
  refine ⟨?_, rfl⟩
  unfold finalize at h ⊢
  cases hf : r.finalized with
  | some d0 =>
    rw [hf] at h
    simp only [Except.ok.injEq, Prod.mk.injEq] at h
    obtain ⟨hd, hr⟩ := h
    subst hd; subst hr
    rw [hf]
  | none =>
    rw [hf] at h
    by_cases hv : finalizeViolations r = []
    · simp only [hv, if_true] at h
      simp only [Except.ok.injEq, Prod.mk.injEq] at h
      obtain ⟨hd, hr⟩ := h
      subst hd; subst hr
      rfl
    · simp [hv] at h

/-- Witness for C1 at the example registry. -/
theorem finalize_idempotent_witness :
    finalize exampleFinal = .ok (exampleDoc, exampleFinal) ∧
    emit exampleDoc = emit exampleDoc :=
  finalize_idempotent exampleOpen exampleFinal exampleDoc (by rfl)

/-!  C3: the Finalized state rejects all registrations and is permanent. -/

/-- C3: once a registry is finalized, every schema or operation registration
fails with RegistryFinalizedError, and `finalize()` still returns the
previously resolved document with the registry unchanged — there is no
transition back to the Open state. -/
theorem finalized_rejects_registrations (r : Registry) (d : ResolvedDocument)
    (h : r.finalized = some d) :
    (∀ name fields, defineSchema r name fields = .error .registryFinalizedError) ∧
    (∀ op, defineOperation r op = .error .registryFinalizedError) ∧
    finalize r = .ok (d, r) := by
  refine ⟨?_, ?_, ?_⟩
  · intro name fields
    unfold defineSchema
    simp [h]
  · intro op
    unfold defineOperation
    simp [h]
  · unfold finalize
    rw [h]

/-- Witness for C3 at the finalized example registry. -/
theorem finalized_rejects_registrations_witness :
    defineSchema exampleFinal "Employee" [] = .error .registryFinalizedError ∧
    defineOperation exampleFinal getEmployee = .error .registryFinalizedError ∧
    finalize exampleFinal = .ok (exampleDoc, exampleFinal) := by
  obtain ⟨h1, h2, h3⟩ :=
    finalized_rejects_registrations exampleFinal exampleDoc (by rfl)
  exact ⟨h1 _ _, h2 _, h3⟩

/-!  C8: duplicate schema names. -/

/-- C8: registering a schema under an already-registered name fails with
DuplicateSchemaError naming it, and the first registration remains in the
schema table (the failed call changes nothing). -/
theorem defineSchema_duplicate (r r₁ : Registry) (name : String)
    (fields fields' : List FieldSpec)
    (h : defineSchema r name fields = .ok r₁) :
    defineSchema r₁ name fields' = .error (.duplicateSchemaError name) ∧
    r₁.schemas = r.schemas ++ [⟨name, fields⟩] := by
  rw [defineSchema_ok_iff] at h
  obtain ⟨hf, _, hr⟩ := h
  subst hr
  refine ⟨?_, rfl⟩
  unfold defineSchema
  simp [hf, List.any_eq_true]

/-- Witness for C8: registering Employee twice. -/
theorem defineSchema_duplicate_witness :
    defineSchema ⟨[employeeSchema], [], none⟩ "Employee" [] =
      .error (.duplicateSchemaError "Employee") ∧
    Registry.schemas ⟨[employeeSchema], [], none⟩ = [] ++ [⟨"Employee", employeeSchema.fields⟩] := by
  exact defineSchema_duplicate emptyRegistry ⟨[employeeSchema], [], none⟩
    "Employee" employeeSchema.fields [] (by rfl)

/-- Membership characterization of the placeholder/parameter mismatches: a
name is a mismatch exactly when it is a placeholder with no path-located
parameter, or a path-located parameter with no placeholder. -/
theorem mem_mismatchNames (op : OperationDescriptor) (p : String) :
    p ∈ mismatchNames op ↔
      (p ∈ extractPlaceholders op.pathTemplate ∧ p ∉ pathParamNames op) ∨
      (p ∈ pathParamNames op ∧ p ∉ extractPlaceholders op.pathTemplate) := by
  simp [mismatchNames, List.mem_filter, List.elem_iff]

/-!  C4: path placeholders and path parameters must correspond. -/

/-- C4: registration of an operation checks that its path-template
placeholders and its path-located parameters correspond: any name on one side
but not the other makes `defineOperation` fail with
PathParameterMismatchError naming the first such name, and when placeholders
and path parameters correspond no PathParameterMismatchError is possible. -/
theorem pathParameterMismatch (r : Registry) (op : OperationDescriptor)
    (hf : r.finalized = none) :
    (∀ p, p ∈ mismatchNames op ↔
        (p ∈ extractPlaceholders op.pathTemplate ∧ p ∉ pathParamNames op) ∨
        (p ∈ pathParamNames op ∧ p ∉ extractPlaceholders op.pathTemplate)) ∧
    (∀ p ps, mismatchNames op = p :: ps →
        defineOperation r op = .error (.pathParameterMismatchError p)) ∧
    (mismatchNames op = [] →
        ∀ e, defineOperation r op ≠ .error (.pathParameterMismatchError e)) ∧
    (∀ r₁, defineOperation r op = .ok r₁ →
        ∀ p, p ∈ extractPlaceholders op.pathTemplate ↔ p ∈ pathParamNames op) := by
  refine ⟨mem_mismatchNames op, ?_, ?_, ?_⟩
  · intro p ps hm
    unfold defineOperation
    rw [if_neg (by simp [hf]), hm]
  · intro hm e
    unfold defineOperation
    rw [if_neg (by simp [hf]), hm]
    cases hst : statusProblems op with
    | cons c cs => simp
    | nil =>
      by_cases hdup : r.operations.any (fun o =>
          decide (o.method = op.method) && decide (o.pathTemplate = op.pathTemplate)) = true
      · rw [if_pos hdup]; simp
      · rw [if_neg hdup]; simp
  · intro r₁ hok p
    obtain ⟨-, hm, -, -, -⟩ := (defineOperation_ok_iff r op r₁).mp hok
    constructor
    · intro hin
      by_contra hnot
      have : p ∈ mismatchNames op := (mem_mismatchNames op p).mpr (Or.inl ⟨hin, hnot⟩)
      rw [hm] at this
      exact absurd this (List.not_mem_nil p)
    · intro hin
      by_contra hnot
      have : p ∈ mismatchNames op := (mem_mismatchNames op p).mpr (Or.inr ⟨hin, hnot⟩)
      rw [hm] at this
      exact absurd this (List.not_mem_nil p)

/-- Witness for C4: the spec's example — path template /employees/{id} with
no id parameter fails naming id. -/
theorem pathParameterMismatch_witness :
    (("id" ∈ extractPlaceholders badGetEmployee.pathTemplate ∧
        "id" ∉ pathParamNames badGetEmployee) ∨
      ("id" ∈ pathParamNames badGetEmployee ∧
        "id" ∉ extractPlaceholders badGetEmployee.pathTemplate)) ∧
    defineOperation emptyRegistry badGetEmployee =
      .error (.pathParameterMismatchError "id") := by
  obtain ⟨h1, h2, -, -⟩ := pathParameterMismatch emptyRegistry badGetEmployee rfl
  exact ⟨(h1 "id").mp (by decide), h2 "id" [] (by rfl)⟩

/-!  C5: duplicate routes. -/

/-- C5: an operation whose (method, pathTemplate) pair is already registered
fails with DuplicateRouteError, while an operation passing all
registration-time checks whose route is fresh — in particular one sharing the
path but differing in method — is accepted. -/
theorem duplicateRoute (r : Registry) (op : OperationDescriptor)
    (hf : r.finalized = none)
    (hm : mismatchNames op = [])
    (hst : statusProblems op = []) :
    ((∃ o ∈ r.operations, o.method = op.method ∧ o.pathTemplate = op.pathTemplate) →
        defineOperation r op = .error (.duplicateRouteError op.method op.pathTemplate)) ∧
    ((∀ o ∈ r.operations, ¬(o.method = op.method ∧ o.pathTemplate = op.pathTemplate)) →
        defineOperation r op = .ok { r with operations := r.operations ++ [op] }) := by
  constructor
  · rintro ⟨o, ho, e1, e2⟩
    unfold defineOperation
    rw [if_neg (by simp [hf]), hm, hst, if_pos (by
      simp only [List.any_eq_true, Bool.and_eq_true, decide_eq_true_eq]
      exact ⟨o, ho, e1, e2⟩)]
  · intro hfresh
    exact (defineOperation_ok_iff r op _).mpr ⟨hf, hm, hst, hfresh, rfl⟩

/-- Witness for C5: re-registering GET /employees fails with
DuplicateRouteError, while POST /employees alongside it is accepted. -/
theorem duplicateRoute_witness :
    defineOperation ⟨[], [listEmployees], none⟩ listEmployees =
      .error (.duplicateRouteError .get "/employees") ∧
    defineOperation ⟨[], [listEmployees], none⟩ createEmployee =
      .ok ⟨[], [listEmployees, createEmployee], none⟩ := by
  constructor
  · exact (duplicateRoute ⟨[], [listEmployees], none⟩ listEmployees rfl rfl rfl).1
      ⟨listEmployees, by decide⟩
  · exact (duplicateRoute ⟨[], [listEmployees], none⟩ createEmployee rfl rfl rfl).2
      (by decide)

/-!  C6: registration order within the Open phase is irrelevant. -/

/-- C6: schema and operation registrations commute in the Open phase — in
particular an operation may be registered before the schemas it references.
If registering a schema and then an operation succeeds, registering them in
the other order also succeeds and produces the identical registry, so
`finalize()` gives the identical result. -/
theorem registration_order_irrelevant (r r₁ r₂ : Registry) (name : String)
    (fields : List FieldSpec) (op : OperationDescriptor)
    (h1 : defineSchema r name fields = .ok r₁)
    (h2 : defineOperation r₁ op = .ok r₂) :
    ∃ r₁', defineOperation r op = .ok r₁' ∧ defineSchema r₁' name fields = .ok r₂ := by
  rw [defineSchema_ok_iff] at h1
  obtain ⟨hf, hfresh, rfl⟩ := h1
  rw [defineOperation_ok_iff] at h2
  obtain ⟨-, hm, hst, hdup, rfl⟩ := h2
  refine ⟨{ r with operations := r.operations ++ [op] }, ?_, ?_⟩
  · exact (defineOperation_ok_iff r op _).mpr ⟨hf, hm, hst, hdup, rfl⟩
  · exact (defineSchema_ok_iff _ name fields _).mpr ⟨hf, hfresh, rfl⟩

/-- Witness for C6: create_employee is registered before any of the schemas
it references; registering Employee afterwards reaches the same registry as
the schema-first order. -/
theorem registration_order_irrelevant_witness :
    ∃ r₁', defineOperation emptyRegistry createEmployee = .ok r₁' ∧
      defineSchema r₁' "Employee" employeeSchema.fields =
        .ok ⟨[employeeSchema], [createEmployee], none⟩ :=
  registration_order_irrelevant emptyRegistry ⟨[employeeSchema], [], none⟩
    ⟨[employeeSchema], [createEmployee], none⟩ "Employee" employeeSchema.fields
    createEmployee (by rfl) (by rfl)

/-!  C7: finalize reports all violations, not only the first. -/

/-- C7: when `finalize()` fails it returns the aggregate violation list:
every schema reference that resolves to no registered schema contributes an
unresolvedSchema entry, and every ill-formed constraint contributes an
illFormedConstraint entry. -/
theorem finalize_aggregates_violations (r : Registry) (es : List Violation)
    (h : finalize r = .error es) :
    es = finalizeViolations r ∧
    (∀ n, n ∈ referencedSchemaNames r → n ∉ schemaNames r →
        Violation.unresolvedSchema n ∈ es) ∧
    (∀ c, c ∈ allConstraints r → ¬ WellFormed c →
        Violation.illFormedConstraint c ∈ es) := by
  have hes : es = finalizeViolations r := by
    unfold finalize at h
    cases hf : r.finalized with
    | some d => rw [hf] at h; exact absurd h (by simp)
    | none =>
      rw [hf] at h
      by_cases hv : finalizeViolations r = []
      · rw [if_pos hv] at h; exact absurd h (by simp)
      · rw [if_neg hv] at h
        simp only [Except.error.injEq] at h
        exact h.symm
  subst hes
  refine ⟨rfl, ?_, ?_⟩
  · intro n hn hnot
    unfold finalizeViolations
    apply List.mem_append_left
    apply List.mem_map_of_mem
    unfold unresolvedRefs
    apply List.mem_filter.mpr
    refine ⟨hn, ?_⟩
    rw [Bool.not_eq_true']
    cases hb : (schemaNames r).contains n with
    | false => rfl
    | true => exact absurd (List.elem_iff.mp hb) hnot
  · intro c hc hwf
    have hb : wellFormedB c = false := by
      cases hb : wellFormedB c with
      | false => rfl
      | true => exact absurd ((wellFormed_iff c).mpr hb) hwf
    unfold finalizeViolations
    apply List.mem_append_right
    apply List.mem_map_of_mem
    unfold badConstraints
    exact List.mem_filter.mpr ⟨hc, by simp [hb]⟩

/-- Witness for C7: a registry with one unresolved reference and one
ill-formed constraint — both violations appear in the report. -/
theorem finalize_aggregates_violations_witness :
    Violation.unresolvedSchema "Missing" ∈ finalizeViolations rBad ∧
    Violation.illFormedConstraint (.enumValues []) ∈ finalizeViolations rBad := by
  obtain ⟨-, h2, h3⟩ :=
    finalize_aggregates_violations rBad (finalizeViolations rBad) (by rfl)
  exact ⟨h2 "Missing" (by decide) (by decide),
    h3 (.enumValues []) (by decide) (fun hw => hw rfl)⟩

/-!  C9: constraints of a finalized registry are well-formed. -/

/-- C9: every constraint held by a registry that `finalize()` accepts is
internally well-formed (ordered bounds, non-empty enumerations, compiling
patterns), and `finalize()` rejects any open registry holding an ill-formed
constraint. -/
theorem finalize_constraint_invariant :
    (∀ r d r', r.finalized = none → finalize r = .ok (d, r') →
        ∀ c ∈ allConstraints r, WellFormed c) ∧
    (∀ r, r.finalized = none → (∃ c ∈ allConstraints r, ¬ WellFormed c) →
        ∃ es, finalize r = .error es ∧ es ≠ []) := by
  constructor
  · intro r d r' hf h c hc
    unfold finalize at h
    rw [hf] at h
    by_cases hv : finalizeViolations r = []
    · have hbad : badConstraints r = [] := by
        unfold finalizeViolations at hv
        have h2 := (List.append_eq_nil.mp hv).2
        exact List.map_eq_nil_iff.mp h2
      have hcb := List.filter_eq_nil_iff.mp hbad c hc
      rw [wellFormed_iff]
      cases hb : wellFormedB c with
      | false => exact absurd (by simp [hb]) hcb
      | true => rfl
    · rw [if_neg hv] at h; exact absurd h (by simp)
  · rintro r hf ⟨c, hc, hwf⟩
    have hb : wellFormedB c = false := by
      cases hb : wellFormedB c with
      | false => rfl
      | true => exact absurd ((wellFormed_iff c).mpr hb) hwf
    have hmem : Violation.illFormedConstraint c ∈ finalizeViolations r := by
      unfold finalizeViolations
      apply List.mem_append_right
      apply List.mem_map_of_mem
      unfold badConstraints
      exact List.mem_filter.mpr ⟨hc, by simp [hb]⟩
    have hv : finalizeViolations r ≠ [] := by
      intro hnil
      rw [hnil] at hmem
      exact absurd hmem (List.not_mem_nil _)
    refine ⟨finalizeViolations r, ?_, hv⟩
    unfold finalize
    rw [hf, if_neg hv]

/-- Witness for C9: the example's employee-id pattern constraint is
well-formed in the accepted example registry, and the registry with an empty
enumeration is rejected. -/
theorem finalize_constraint_invariant_witness :
    WellFormed (FieldConstraint.pattern "^[A-Z]{3}[0-9]{3}$") ∧
    (∃ es, finalize rBad = .error es ∧ es ≠ []) :=
  ⟨finalize_constraint_invariant.1 exampleOpen exampleDoc exampleFinal rfl (by rfl)
      (FieldConstraint.pattern "^[A-Z]{3}[0-9]{3}$") (by decide),
    finalize_constraint_invariant.2 rBad rfl
      ⟨.enumValues [], by decide, fun hw => hw rfl⟩⟩

/-!  C2: the emitter is a pure, deterministic, ordering emitter. -/

/-- C2: `emit` is a pure function of the resolved document — equal inputs
give equal InterchangeDocuments — with the emitted operations sorted by
(tag, path, method), the emitted schemas sorted by name, and each a
permutation of the document's registrations. -/
theorem emit_pure_ordered (d : ResolvedDocument) :
    emit d = emit d ∧
    List.Sorted opLE (emit d).operations ∧
    List.Sorted schemaLE (emit d).schemas ∧
    List.Perm (emit d).operations d.operations ∧
    List.Perm (emit d).schemas d.schemas :=
  ⟨rfl, List.sorted_insertionSort opLE d.operations,
    List.sorted_insertionSort schemaLE d.schemas,
    List.perm_insertionSort opLE d.operations,
    List.perm_insertionSort schemaLE d.schemas⟩

/-!  C10: every declared operation carries the BearerAuth requirement. -/

/-- C10: each of the three operations declared in the example
(list_employees, create_employee, get_employee) carries the BearerAuth
security requirement, identical to the document-level security declaration of
the ApiDoc block. -/
theorem bearer_auth_everywhere :
    apiDocOperations = [listEmployees, createEmployee, getEmployee] ∧
    apiDocOperations.all (fun op => op.security.contains "BearerAuth") = true ∧
    apiDocOperations.all (fun op => op.security = apiDocSecurity) = true :=
  ⟨rfl, by decide, by decide⟩

end DevStandards
